import Mathlib

/-!
# service-account-test: the account ledger

A shallow embedding of `internal/models`, `internal/repository`,
`internal/service` and the withdraw route of `internal/handler`, and the
properties of the balance-mutation and registration paths.

The table `accounts` is a list of rows in insertion order.  Every call to
`database/sql` is one step on that table.  The error a driver call may return
is an explicit input (`fault`): `none` means the statement was executed,
`some err` means the driver returned `err` and the statement was not applied.
Logging (`LogOperation` with the results "start", "success" and "error") has no
effect on the table or on control flow and is left out.
-/

namespace ServiceAccount

/-! ## internal/models -/

namespace models

/-- Modelled from the spec: the type of the column `balance` of the table
`accounts`, whose declaration is not part of the source tree.  The data model
calls it a decimal/fixed-point monetary amount, so amounts are exact integers
of the minor unit and the store computes `balance - $1`, `balance + $1` and
`balance >= $1` exactly. -/
abbrev Money := Int

/-- A `time.Time`, as an offset from the zero value `time.Time{}`. -/
abbrev Time := Int

/-- The struct `models.Account`, one row of `accounts`. -/
structure Account where
  ID : Int
  AccountNumber : String
  Name : String
  NIK : String
  PhoneNumber : String
  Balance : Money
  CreatedAt : Time
  UpdatedAt : Time
deriving DecidableEq

end models

namespace dto

/-- The struct `dto.AccountRegistration`. -/
structure AccountRegistration where
  Nama : String
  NIK : String
  NoHP : String
deriving DecidableEq

end dto

/-- A Go `error` value: one built by `errors.New`, or one returned by the
database driver. -/
inductive Error where
  | new (msg : String)
  | driver (msg : String)
deriving DecidableEq

/-! ## The store -/

/-- The rows of the table `accounts`, oldest first. -/
abbrev DB := List models.Account

/-- One `UPDATE accounts SET ... WHERE ...` statement: every row that
satisfies the condition is rewritten, all in one step; the second component is
the number of rows affected. -/
def sqlUpdate (cond : models.Account → Bool) (set : models.Account → models.Account)
    (db : DB) : DB × Nat :=
  (db.map (fun row => if cond row then set row else row), db.countP cond)

/-- The `SELECT EXISTS(SELECT 1 FROM accounts WHERE ...)` query. -/
def sqlExists (cond : models.Account → Bool) (db : DB) : Bool :=
  db.any cond

/-- The `INSERT INTO accounts (...) VALUES (...) RETURNING id` statement: the
row is appended with the id assigned by the store, which is returned. -/
def sqlInsert (newID : Int) (row : models.Account) (db : DB) : DB × Int :=
  (db ++ [{ row with ID := newID }], newID)

/-- The method `DB.ExecContext`: either the driver fails and nothing is
applied, or the statement runs as one step. -/
def ExecContext (fault : Option Error) (stmt : DB → DB × Nat) (db : DB) :
    DB × Except Error Nat :=
  match fault with
  | some err => (db, .error err)
  | none => ((stmt db).1, .ok (stmt db).2)

/-- The method `DB.QueryRowContext(...).Scan` for a read-only query. -/
def QueryRowContext {α : Type} (fault : Option Error) (query : DB → α) (db : DB) :
    Except Error α :=
  match fault with
  | some err => .error err
  | none => .ok (query db)

/-! ## internal/repository -/

namespace repository

/-- The method `repository.NIKExist`. -/
def NIKExist (fault : Option Error) (db : DB) (nik : String) : Except Error Bool :=
  match QueryRowContext fault (sqlExists (fun row => row.NIK == nik)) db with
  | .error err => .error err
  | .ok exists_ => .ok exists_

/-- The method `repository.PhoneNumberExist`. -/
def PhoneNumberExist (fault : Option Error) (db : DB) (phoneNumber : String) :
    Except Error Bool :=
  match QueryRowContext fault (sqlExists (fun row => row.PhoneNumber == phoneNumber)) db with
  | .error err => .error err
  | .ok exists_ => .ok exists_

/-- The method `repository.CreateAccount`: the insert, then the scan of the
returned id into the account. -/
def CreateAccount (fault : Option Error) (newID : Int) (db : DB)
    (account : models.Account) : DB × Except Error models.Account :=
  match fault with
  | some err => (db, .error err)
  | none =>
    let res := sqlInsert newID account db
    (res.1, .ok { account with ID := res.2 })

/-- The method `repository.UpdateBalanceWithdraw`, with the statement
`UPDATE accounts SET balance = balance - $1 WHERE account_number = $2 AND balance >= $1`. -/
def UpdateBalanceWithdraw (fault : Option Error) (db : DB) (accountNumber : String)
    (amount : models.Money) : DB × Option Error :=
  match ExecContext fault
      (sqlUpdate (fun row => row.AccountNumber == accountNumber && decide (row.Balance ≥ amount))
        (fun row => { row with Balance := row.Balance - amount })) db with
  | (db', .error err) => (db', some err)
  | (db', .ok rowAffected) =>
    if rowAffected = 0 then (db', some (Error.new "insufficient balance"))
    else (db', none)

/-- The method `repository.UpdateBalanceDeposit`, with the statement
`UPDATE accounts SET balance = balance + $1 WHERE  account_number = $2`. -/
def UpdateBalanceDeposit (fault : Option Error) (db : DB) (accountNumber : String)
    (amount : models.Money) : DB × Option Error :=
  match ExecContext fault
      (sqlUpdate (fun row => row.AccountNumber == accountNumber)
        (fun row => { row with Balance := row.Balance + amount })) db with
  | (db', .error err) => (db', some err)
  | (db', .ok rowAffected) =>
    if rowAffected = 0 then (db', some (Error.new "saldo not updated"))
    else (db', none)

end repository

/-! ## internal/service -/

namespace service

/-- The function `generateAccountNumber`: ten rounds of
`accountNumber += fmt.Sprintf("%d", rand.Intn(10))`, where `draw i` is the
result of the `i`-th call of `rand.Intn(10)`. -/
def generateAccountNumber (draw : Nat → Fin 10) : String :=
  (List.range 10).foldl (fun accountNumber i => accountNumber ++ toString (draw i).val) ""

/-- What one call of `service.CreateAccount` receives from outside: the
driver's error for each of its three store calls, the id the store assigns,
and the random draws. -/
structure CreateEnv where
  nikFault : Option Error
  phoneFault : Option Error
  insertFault : Option Error
  newID : Int
  draw : Nat → Fin 10

/-- The method `service.CreateAccount`. -/
def CreateAccount (env : CreateEnv) (db : DB) (reqAccount : dto.AccountRegistration) :
    DB × Except Error models.Account :=
  match repository.NIKExist env.nikFault db reqAccount.NIK with
  | .error err => (db, .error err)
  | .ok true => (db, .error (Error.new "NIK already exists"))
  | .ok false =>
    match repository.PhoneNumberExist env.phoneFault db reqAccount.NoHP with
    | .error err => (db, .error err)
    | .ok true => (db, .error (Error.new "phone Number already exists"))
    | .ok false =>
      let account : models.Account :=
        { ID := 0
          AccountNumber := generateAccountNumber env.draw
          Name := reqAccount.Nama
          NIK := reqAccount.NIK
          PhoneNumber := reqAccount.NoHP
          Balance := 0
          CreatedAt := 0
          UpdatedAt := 0 }
      match repository.CreateAccount env.insertFault env.newID db account with
      | (db', .error err) => (db', .error err)
      | (db', .ok createdAccount) => (db', .ok createdAccount)

/-- The method `service.UpdateBalanceWithdraw`. -/
def UpdateBalanceWithdraw (fault : Option Error) (db : DB) (accountNumber : String)
    (amount : models.Money) : DB × Option Error :=
  match repository.UpdateBalanceWithdraw fault db accountNumber amount with
  | (db', some err) => (db', some err)
  | (db', none) => (db', none)

/-- The method `service.UpdateBalanceDeposit`. -/
def UpdateBalanceDeposit (fault : Option Error) (db : DB) (accountNumber : String)
    (amount : models.Money) : DB × Option Error :=
  match repository.UpdateBalanceDeposit fault db accountNumber amount with
  | (db', some err) => (db', some err)
  | (db', none) => (db', none)

end service

/-! ## Reading an account -/

/-- The method `Error()` of an error value: its message. -/
def Error.message : Error → String
  | .new msg => msg
  | .driver msg => msg

/-- The value `sql.ErrNoRows`, which `Scan` returns when the query of
`QueryRowContext` selects no row. -/
def ErrNoRows : Error :=
  Error.new "sql: no rows in result set"

/-- A `SELECT ... FROM accounts WHERE ...` query: the rows that satisfy the
condition, in table order. -/
def sqlSelect (cond : models.Account → Bool) (db : DB) : List models.Account :=
  db.filter cond

namespace repository

/-- The method `repository.GetAccountByNoRekening`: the first row selected
by `SELECT ... FROM accounts WHERE account_number = $1` is scanned into the
account. -/
def GetAccountByNoRekening (fault : Option Error) (db : DB) (noRekening : String) :
    Except Error models.Account :=
  match QueryRowContext fault (sqlSelect (fun row => row.AccountNumber == noRekening)) db with
  | .error err => .error err
  | .ok [] => .error ErrNoRows
  | .ok (account :: _) => .ok account

end repository

namespace service

/-- The method `service.GetAccountByNoRekening`. -/
def GetAccountByNoRekening (fault : Option Error) (db : DB) (noRekening : String) :
    Except Error models.Account :=
  match repository.GetAccountByNoRekening fault db noRekening with
  | .error err => .error err
  | .ok account => .ok account

end service

/-! ## internal/handler -/

namespace dto

/-- The struct `dto.WithdrawDepositRequest`; the JSON field `saldo` is the
amount. -/
structure WithdrawDepositRequest where
  NoRekening : String
  Amount : models.Money
deriving DecidableEq

/-- The struct `dto.BalanceResponse`. -/
structure BalanceResponse where
  Saldo : models.Money
deriving DecidableEq

/-- The struct `dto.ErrorResponse`. -/
structure ErrorResponse where
  Remark : String
deriving DecidableEq

end dto

namespace handler

/-- The JSON body of a response of the withdraw and deposit routes. -/
inductive Body where
  | ErrorResponse (body : dto.ErrorResponse)
  | BalanceResponse (body : dto.BalanceResponse)
deriving DecidableEq

/-- What `c.JSON(status, body)` sends. -/
structure Response where
  Status : Nat
  Body : Body
deriving DecidableEq

/-- The constant `http.StatusBadRequest`. -/
def StatusBadRequest : Nat := 400

/-- The constant `http.StatusOK`. -/
def StatusOK : Nat := 200

/-- The method `accountHandler.Withdraw`.  `bind` is the outcome of
`c.Bind(&req)`, `updateFault` and `queryFault` are the driver's errors for the
update and for the read that follows it. -/
def Withdraw (bind : Except Error dto.WithdrawDepositRequest)
    (updateFault queryFault : Option Error) (db : DB) : DB × Response :=
  match bind with
  | .error _ => (db, ⟨StatusBadRequest, .ErrorResponse { Remark := "" }⟩)
  | .ok req =>
    match service.UpdateBalanceWithdraw updateFault db req.NoRekening req.Amount with
    | (db', some err) => (db', ⟨StatusBadRequest, .ErrorResponse { Remark := err.message }⟩)
    | (db', none) =>
      match service.GetAccountByNoRekening queryFault db' req.NoRekening with
      | .error err => (db', ⟨StatusBadRequest, .ErrorResponse { Remark := err.message }⟩)
      | .ok account => (db', ⟨StatusOK, .BalanceResponse { Saldo := account.Balance }⟩)

end handler

/-! ## Sequences of calls -/

/-- One call of the service, with everything it receives from outside. -/
inductive Call where
  | CreateAccount (env : service.CreateEnv) (reqAccount : dto.AccountRegistration)
  | UpdateBalanceWithdraw (fault : Option Error) (accountNumber : String) (amount : models.Money)
  | UpdateBalanceDeposit (fault : Option Error) (accountNumber : String) (amount : models.Money)

/-- The table after one call. -/
def step (db : DB) : Call → DB
  | .CreateAccount env reqAccount => (service.CreateAccount env db reqAccount).1
  | .UpdateBalanceWithdraw fault accountNumber amount =>
    (service.UpdateBalanceWithdraw fault db accountNumber amount).1
  | .UpdateBalanceDeposit fault accountNumber amount =>
    (service.UpdateBalanceDeposit fault db accountNumber amount).1

/-- The table after a sequence of calls, one after the other. -/
def run (db : DB) (calls : List Call) : DB :=
  calls.foldl step db

/-- A list of `service.UpdateBalanceWithdraw` calls on one account number,
each applied as one step: the final table and the sum of the amounts of the
calls that returned no error. -/
def runWithdraws (db : DB) (accountNumber : String) :
    List (Option Error × models.Money) → DB × models.Money
  | [] => (db, 0)
  | (fault, amount) :: rest =>
    let res := service.UpdateBalanceWithdraw fault db accountNumber amount
    let tail := runWithdraws res.1 accountNumber rest
    (tail.1, (if res.2 = none then amount else 0) + tail.2)

/-- The two requests of a race. -/
inductive Thread where
  | A
  | B
deriving DecidableEq

/-- Two concurrent `service.UpdateBalanceWithdraw` calls on one account
number.  Each call touches the table in exactly one statement, so an
interleaving is fixed by whose statement the store runs first.  The result is
the final table, the error of request A and the error of request B. -/
def raceWithdraw (first : Thread) (db : DB) (accountNumber : String)
    (amountA amountB : models.Money) : DB × Option Error × Option Error :=
  match first with
  | .A =>
    let ra := service.UpdateBalanceWithdraw none db accountNumber amountA
    let rb := service.UpdateBalanceWithdraw none ra.1 accountNumber amountB
    (rb.1, ra.2, rb.2)
  | .B =>
    let rb := service.UpdateBalanceWithdraw none db accountNumber amountB
    let ra := service.UpdateBalanceWithdraw none rb.1 accountNumber amountA
    (ra.1, ra.2, rb.2)

/-- The table is a keyed collection: no two rows carry the same account
number. -/
def Keyed (db : DB) : Prop :=
  (db.map (fun row => row.AccountNumber)).Nodup

instance (db : DB) : Decidable (Keyed db) := by
  unfold Keyed
  infer_instance

/-- The call is not a deposit of a negative amount. -/
def Call.depositNonneg : Call → Prop
  | .UpdateBalanceDeposit _ _ amount => 0 ≤ amount
  | _ => True

instance (c : Call) : Decidable c.depositNonneg := by
  cases c <;> unfold Call.depositNonneg <;> infer_instance

/-! ## Sample data -/

/-- Withdrawals of 60, 60, 60, 30 and 20, the second with a failing driver
call: 230 in all. -/
def sampleWithdraws : List (Option Error × models.Money) :=
  [(none, 60), (some (Error.driver "context canceled"), 60), (none, 60), (none, 30),
   (none, 20)]

/-- A registration environment in which every store call is executed, the
store assigns the id 1 and every draw is 0. -/
def sampleEnv : service.CreateEnv :=
  { nikFault := none, phoneFault := none, insertFault := none, newID := 1,
    draw := fun _ => 0 }

/-- A registration request. -/
def sampleReq : dto.AccountRegistration :=
  { Nama := "Budi", NIK := "3201", NoHP := "0811" }

/-- A second request with the NIK of the first and another name and phone
number. -/
def sampleReqSameNIK : dto.AccountRegistration :=
  { Nama := "Siti", NIK := "3201", NoHP := "0899" }

/-- A registration followed by a deposit of minus five. -/
def negativeDepositCalls : List Call :=
  [.CreateAccount sampleEnv sampleReq, .UpdateBalanceDeposit none "0000000000" (-5)]

/-- A registration, a deposit of 100, a withdrawal of 150 that fails, two
withdrawals of 60 of which the second fails, and a withdrawal of minus five. -/
def mixedCalls : List Call :=
  [.CreateAccount sampleEnv sampleReq, .UpdateBalanceDeposit none "0000000000" 100,
   .UpdateBalanceWithdraw none "0000000000" 150, .UpdateBalanceWithdraw none "0000000000" 60,
   .UpdateBalanceWithdraw none "0000000000" 60, .UpdateBalanceWithdraw none "0000000000" (-5)]

/-- A registration environment like `sampleEnv`, with the id 2 and the first
draw 9. -/
def sampleEnvSecond : service.CreateEnv :=
  { nikFault := none, phoneFault := none, insertFault := none, newID := 2,
    draw := fun i => if i = 0 then 9 else 0 }

/-- A request with a fresh NIK and the phone number of the first request. -/
def sampleReqSamePhone : dto.AccountRegistration :=
  { Nama := "Siti", NIK := "3202", NoHP := "0811" }

/-- A request with a fresh NIK and a fresh phone number. -/
def sampleReqFresh : dto.AccountRegistration :=
  { Nama := "Siti", NIK := "3202", NoHP := "0899" }

/-- A registration, two registrations that repeat its NIK and its phone
number, a registration with fresh identity, a deposit and a withdrawal. -/
def registrationCalls : List Call :=
  [.CreateAccount sampleEnv sampleReq, .CreateAccount sampleEnvSecond sampleReqSameNIK,
   .CreateAccount sampleEnvSecond sampleReqSamePhone,
   .CreateAccount sampleEnvSecond sampleReqFresh,
   .UpdateBalanceDeposit none "0000000000" 100, .UpdateBalanceWithdraw none "9000000000" 10]

/-- A withdraw request for minus five on the sample account. -/
def negativeWithdrawRequest : dto.WithdrawDepositRequest :=
  { NoRekening := "1234567890", Amount := -5 }

/-- A withdraw request for zero on the sample account. -/
def zeroWithdrawRequest : dto.WithdrawDepositRequest :=
  { NoRekening := "1234567890", Amount := 0 }

/-- A row with the given account number and balance. -/
def sampleRow (accountNumber : String) (balance : models.Money) : models.Account :=
  { ID := 1, AccountNumber := accountNumber, Name := "Budi", NIK := "3201",
    PhoneNumber := "0811", Balance := balance, CreatedAt := 0, UpdatedAt := 0 }

/-! ## The two update statements, unfolded -/

/-- The service adds nothing to the repository's withdrawal. -/
theorem service_withdraw_eq (fault : Option Error) (db : DB) (acc : String)
    (amount : models.Money) :
    service.UpdateBalanceWithdraw fault db acc amount
      = repository.UpdateBalanceWithdraw fault db acc amount := by
  unfold service.UpdateBalanceWithdraw
  rcases h : repository.UpdateBalanceWithdraw fault db acc amount with ⟨db', _ | err⟩ <;> rfl

/-- The service adds nothing to the repository's deposit. -/
theorem service_deposit_eq (fault : Option Error) (db : DB) (acc : String)
    (amount : models.Money) :
    service.UpdateBalanceDeposit fault db acc amount
      = repository.UpdateBalanceDeposit fault db acc amount := by
  unfold service.UpdateBalanceDeposit
  rcases h : repository.UpdateBalanceDeposit fault db acc amount with ⟨db', _ | err⟩ <;> rfl

/-- A failed driver call leaves the table as it was (withdrawal). -/
theorem withdraw_fault (err : Error) (db : DB) (acc : String) (amount : models.Money) :
    repository.UpdateBalanceWithdraw (some err) db acc amount = (db, some err) := rfl

/-- A failed driver call leaves the table as it was (deposit). -/
theorem deposit_fault (err : Error) (db : DB) (acc : String) (amount : models.Money) :
    repository.UpdateBalanceDeposit (some err) db acc amount = (db, some err) := rfl

/-- The table after an executed withdrawal statement. -/
theorem withdraw_db (db : DB) (acc : String) (amount : models.Money) :
    (repository.UpdateBalanceWithdraw none db acc amount).1
      = db.map (fun row =>
          if (row.AccountNumber == acc && decide (row.Balance ≥ amount)) = true
          then { row with Balance := row.Balance - amount } else row) := by
  simp only [repository.UpdateBalanceWithdraw, ExecContext, sqlUpdate]
  split <;> rfl

/-- The error of an executed withdrawal statement. -/
theorem withdraw_err (db : DB) (acc : String) (amount : models.Money) :
    (repository.UpdateBalanceWithdraw none db acc amount).2
      = if db.countP (fun row => row.AccountNumber == acc && decide (row.Balance ≥ amount)) = 0
        then some (Error.new "insufficient balance") else none := by
  simp only [repository.UpdateBalanceWithdraw, ExecContext, sqlUpdate]
  split <;> rfl

/-- The table after an executed deposit statement. -/
theorem deposit_db (db : DB) (acc : String) (amount : models.Money) :
    (repository.UpdateBalanceDeposit none db acc amount).1
      = db.map (fun row =>
          if (row.AccountNumber == acc) = true
          then { row with Balance := row.Balance + amount } else row) := by
  simp only [repository.UpdateBalanceDeposit, ExecContext, sqlUpdate]
  split <;> rfl

/-- The error of an executed deposit statement. -/
theorem deposit_err (db : DB) (acc : String) (amount : models.Money) :
    (repository.UpdateBalanceDeposit none db acc amount).2
      = if db.countP (fun row => row.AccountNumber == acc) = 0
        then some (Error.new "saldo not updated") else none := by
  simp only [repository.UpdateBalanceDeposit, ExecContext, sqlUpdate]
  split <;> rfl

/-- A map that changes no row of the list is the identity on it. -/
theorem map_eq_self_of_forall {f : models.Account → models.Account} {db : DB}
    (h : ∀ row ∈ db, f row = row) : db.map f = db := by
  induction db with
  | nil => rfl
  | cons row rest ih =>
    simp only [List.map_cons]
    rw [h row (List.mem_cons_self _ _), ih (fun r hr => h r (List.mem_cons_of_mem _ hr))]

/-- An executed withdrawal returns no error as soon as one row matches. -/
theorem withdraw_matched_none (db : DB) (acc : String) (amount : models.Money)
    (h : ∃ row ∈ db, row.AccountNumber = acc ∧ row.Balance ≥ amount) :
    (repository.UpdateBalanceWithdraw none db acc amount).2 = none := by
  rw [withdraw_err]
  obtain ⟨row, hmem, hacc, hbal⟩ := h
  have hpos : 0 < db.countP
      (fun row => row.AccountNumber == acc && decide (row.Balance ≥ amount)) :=
    List.countP_pos_iff.mpr ⟨row, hmem, by simp [hacc, hbal]⟩
  rw [if_neg (by omega)]

/-- An executed withdrawal that returned no error matched some row. -/
theorem withdraw_none_matched (db : DB) (acc : String) (amount : models.Money)
    (h : (repository.UpdateBalanceWithdraw none db acc amount).2 = none) :
    ∃ row ∈ db, row.AccountNumber = acc ∧ row.Balance ≥ amount := by
  rw [withdraw_err] at h
  by_contra hno
  have hz : db.countP
      (fun row => row.AccountNumber == acc && decide (row.Balance ≥ amount)) = 0 := by
    apply List.countP_eq_zero.mpr
    intro row hmem hc
    simp only [Bool.and_eq_true, beq_iff_eq, decide_eq_true_eq] at hc
    exact hno ⟨row, hmem, hc⟩
  rw [if_pos hz] at h
  exact Option.noConfusion h

/-- In a keyed table, two rows with one account number are one row. -/
theorem Keyed.row_eq {db : DB} (hkey : Keyed db) {r₁ r₂ : models.Account}
    (h₁ : r₁ ∈ db) (h₂ : r₂ ∈ db) (h : r₁.AccountNumber = r₂.AccountNumber) : r₁ = r₂ :=
  List.inj_on_of_nodup_map hkey h₁ h₂ h

/-- A withdrawal call never changes which account numbers the table holds. -/
theorem withdraw_accountNumbers (fault : Option Error) (db : DB) (acc : String)
    (amount : models.Money) :
    (repository.UpdateBalanceWithdraw fault db acc amount).1.map (fun row => row.AccountNumber)
      = db.map (fun row => row.AccountNumber) := by
  cases fault with
  | some err => rw [withdraw_fault]
  | none =>
    rw [withdraw_db, List.map_map]
    apply List.map_congr_left
    intro row _
    simp only [Function.comp_apply]
    split <;> rfl

/-- A deposit call never changes which account numbers the table holds. -/
theorem deposit_accountNumbers (fault : Option Error) (db : DB) (acc : String)
    (amount : models.Money) :
    (repository.UpdateBalanceDeposit fault db acc amount).1.map (fun row => row.AccountNumber)
      = db.map (fun row => row.AccountNumber) := by
  cases fault with
  | some err => rw [deposit_fault]
  | none =>
    rw [deposit_db, List.map_map]
    apply List.map_congr_left
    intro row _
    simp only [Function.comp_apply]
    split <;> rfl

/-- A withdrawal call, whatever its arguments and outcome, keeps every
balance at or above zero when every balance was. -/
theorem withdraw_nonneg (fault : Option Error) (db : DB) (acc : String)
    (amount : models.Money) (h : ∀ row ∈ db, 0 ≤ row.Balance) :
    ∀ row ∈ (repository.UpdateBalanceWithdraw fault db acc amount).1, 0 ≤ row.Balance := by
  cases fault with
  | some err => rw [withdraw_fault]; exact h
  | none =>
    rw [withdraw_db]
    intro row hrow
    obtain ⟨old, hold, rfl⟩ := List.mem_map.mp hrow
    split
    · next hc =>
      simp only [Bool.and_eq_true, beq_iff_eq, decide_eq_true_eq] at hc
      show 0 ≤ old.Balance - amount
      exact sub_nonneg.mpr hc.2
    · exact h old hold

/-- When every row with the number has balance `b`, after a withdrawal call
every row with the number has `b` less the amount if the call returned no
error, and `b` if it returned one. -/
theorem withdraw_uniform (fault : Option Error) (db : DB) (acc : String)
    (amount b : models.Money) (h : ∀ row ∈ db, row.AccountNumber = acc → row.Balance = b) :
    ∀ row ∈ (repository.UpdateBalanceWithdraw fault db acc amount).1,
      row.AccountNumber = acc →
      row.Balance = b -
        (if (repository.UpdateBalanceWithdraw fault db acc amount).2 = none
          then amount else 0) := by
  cases fault with
  | some err =>
    rw [withdraw_fault]
    intro row hrow hacc
    simp [h row hrow hacc]
  | none =>
    by_cases hex : ∃ row ∈ db, row.AccountNumber = acc ∧ row.Balance ≥ amount
    · have hnone : (repository.UpdateBalanceWithdraw none db acc amount).2 = none :=
        (withdraw_matched_none db acc amount hex)
      rw [hnone, if_pos rfl, withdraw_db]
      obtain ⟨wit, hwit, hwacc, hwbal⟩ := hex
      have hb : b ≥ amount := by rw [← h wit hwit hwacc]; exact hwbal
      intro row hrow hacc
      obtain ⟨old, hold, rfl⟩ := List.mem_map.mp hrow
      have hoacc : old.AccountNumber = acc := by
        split at hacc <;> exact hacc
      have hob : old.Balance = b := h old hold hoacc
      rw [if_pos (by simp [hoacc, hob, hb])]
      show old.Balance - amount = b - amount
      rw [hob]
    · have hno : ∀ row ∈ db,
          ¬ ((row.AccountNumber == acc && decide (row.Balance ≥ amount)) = true) := by
        intro row hmem hc
        simp only [Bool.and_eq_true, beq_iff_eq, decide_eq_true_eq] at hc
        exact hex ⟨row, hmem, hc⟩
      have hdb : (repository.UpdateBalanceWithdraw none db acc amount).1 = db := by
        rw [withdraw_db]
        exact map_eq_self_of_forall (fun row hmem => if_neg (hno row hmem))
      have herr : (repository.UpdateBalanceWithdraw none db acc amount).2
          = some (Error.new "insufficient balance") := by
        rw [withdraw_err, if_pos (List.countP_eq_zero.mpr hno)]
      rw [hdb, herr]
      intro row hrow hacc
      simp [h row hrow hacc]

/-- A registration that returns an account appended exactly that account,
built from the request with balance zero. -/
theorem create_ok {env : service.CreateEnv} {db : DB} {req : dto.AccountRegistration}
    {acct : models.Account} (h : (service.CreateAccount env db req).2 = .ok acct) :
    (service.CreateAccount env db req).1 = db ++ [acct] ∧
    acct = { ID := env.newID
             AccountNumber := service.generateAccountNumber env.draw
             Name := req.Nama
             NIK := req.NIK
             PhoneNumber := req.NoHP
             Balance := 0
             CreatedAt := 0
             UpdatedAt := 0 } := by
  obtain ⟨f₁, f₂, f₃, newID, draw⟩ := env
  unfold service.CreateAccount repository.NIKExist repository.PhoneNumberExist
    repository.CreateAccount QueryRowContext sqlInsert sqlExists at *
  cases f₁ <;> cases f₂ <;> cases f₃ <;>
    cases h₁ : db.any (fun row => row.NIK == req.NIK) <;>
    cases h₂ : db.any (fun row => row.PhoneNumber == req.NoHP) <;>
    simp_all

/-- A registration that returns an error left the table as it was. -/
theorem create_error {env : service.CreateEnv} {db : DB} {req : dto.AccountRegistration}
    {err : Error} (h : (service.CreateAccount env db req).2 = .error err) :
    (service.CreateAccount env db req).1 = db := by
  obtain ⟨f₁, f₂, f₃, newID, draw⟩ := env
  unfold service.CreateAccount repository.NIKExist repository.PhoneNumberExist
    repository.CreateAccount QueryRowContext sqlInsert sqlExists at *
  cases f₁ <;> cases f₂ <;> cases f₃ <;>
    cases h₁ : db.any (fun row => row.NIK == req.NIK) <;>
    cases h₂ : db.any (fun row => row.PhoneNumber == req.NoHP) <;>
    simp_all

/-- A registration keeps every balance at or above zero. -/
theorem create_nonneg (env : service.CreateEnv) (db : DB) (req : dto.AccountRegistration)
    (h : ∀ row ∈ db, 0 ≤ row.Balance) :
    ∀ row ∈ (service.CreateAccount env db req).1, 0 ≤ row.Balance := by
  rcases hres : (service.CreateAccount env db req).2 with err | acct
  · rw [create_error hres]; exact h
  · obtain ⟨hdb, hacct⟩ := create_ok hres
    rw [hdb]
    intro row hrow
    rcases List.mem_append.mp hrow with hold | hnew
    · exact h row hold
    · rw [List.mem_singleton.mp hnew, hacct]

/-- A deposit of an amount that is not negative keeps every balance at or
above zero. -/
theorem deposit_nonneg (fault : Option Error) (db : DB) (acc : String)
    (amount : models.Money) (hamount : 0 ≤ amount) (h : ∀ row ∈ db, 0 ≤ row.Balance) :
    ∀ row ∈ (repository.UpdateBalanceDeposit fault db acc amount).1, 0 ≤ row.Balance := by
  cases fault with
  | some err => rw [deposit_fault]; exact h
  | none =>
    rw [deposit_db]
    intro row hrow
    obtain ⟨old, hold, rfl⟩ := List.mem_map.mp hrow
    split
    · show 0 ≤ old.Balance + amount
      exact add_nonneg (h old hold) hamount
    · exact h old hold

/-- One call that is not a negative deposit keeps every balance at or above
zero. -/
theorem step_nonneg (db : DB) (c : Call) (hc : c.depositNonneg)
    (h : ∀ row ∈ db, 0 ≤ row.Balance) : ∀ row ∈ step db c, 0 ≤ row.Balance := by
  cases c with
  | CreateAccount env req => exact create_nonneg env db req h
  | UpdateBalanceWithdraw fault acc amount =>
    show ∀ row ∈ (service.UpdateBalanceWithdraw fault db acc amount).1, 0 ≤ row.Balance
    rw [service_withdraw_eq]
    exact withdraw_nonneg fault db acc amount h
  | UpdateBalanceDeposit fault acc amount =>
    show ∀ row ∈ (service.UpdateBalanceDeposit fault db acc amount).1, 0 ≤ row.Balance
    rw [service_deposit_eq]
    exact deposit_nonneg fault db acc amount hc h

/-- A sequence of calls without negative deposits keeps every balance at or
above zero. -/
theorem run_nonneg (calls : List Call) (db : DB) (hc : ∀ c ∈ calls, c.depositNonneg)
    (h : ∀ row ∈ db, 0 ≤ row.Balance) : ∀ row ∈ run db calls, 0 ≤ row.Balance := by
  induction calls generalizing db with
  | nil => exact h
  | cons c rest ih =>
    show ∀ row ∈ run (step db c) rest, 0 ≤ row.Balance
    exact ih (step db c) (fun c' hc' => hc c' (List.mem_cons_of_mem _ hc'))
      (step_nonneg db c (hc c (List.mem_cons_self _ _)) h)

/-- A list of withdrawals keeps every balance at or above zero. -/
theorem runWithdraws_nonneg (acc : String) (calls : List (Option Error × models.Money))
    (db : DB) (h : ∀ row ∈ db, 0 ≤ row.Balance) :
    ∀ row ∈ (runWithdraws db acc calls).1, 0 ≤ row.Balance := by
  induction calls generalizing db with
  | nil => exact h
  | cons c rest ih =>
    obtain ⟨fault, amount⟩ := c
    show ∀ row ∈ (runWithdraws (service.UpdateBalanceWithdraw fault db acc amount).1
      acc rest).1, 0 ≤ row.Balance
    apply ih
    rw [service_withdraw_eq]
    exact withdraw_nonneg fault db acc amount h

/-- A list of withdrawals never changes which account numbers the table
holds. -/
theorem runWithdraws_accountNumbers (acc : String)
    (calls : List (Option Error × models.Money)) (db : DB) :
    (runWithdraws db acc calls).1.map (fun row => row.AccountNumber)
      = db.map (fun row => row.AccountNumber) := by
  induction calls generalizing db with
  | nil => rfl
  | cons c rest ih =>
    obtain ⟨fault, amount⟩ := c
    show (runWithdraws (service.UpdateBalanceWithdraw fault db acc amount).1
      acc rest).1.map (fun row => row.AccountNumber) = _
    rw [ih, service_withdraw_eq, withdraw_accountNumbers]

/-- When every row with the number has balance `b`, after a list of
withdrawals every row with the number has `b` less the amounts of the calls
that returned no error. -/
theorem runWithdraws_uniform (acc : String) (calls : List (Option Error × models.Money))
    (db : DB) (b : models.Money)
    (h : ∀ row ∈ db, row.AccountNumber = acc → row.Balance = b) :
    ∀ row ∈ (runWithdraws db acc calls).1, row.AccountNumber = acc →
      row.Balance = b - (runWithdraws db acc calls).2 := by
  induction calls generalizing db b with
  | nil =>
    intro row hrow hacc
    show row.Balance = b - 0
    rw [h row hrow hacc, sub_zero]
  | cons c rest ih =>
    obtain ⟨fault, amount⟩ := c
    intro row hrow hacc
    have hstep := withdraw_uniform fault db acc amount b h
    rw [← service_withdraw_eq] at hstep
    have := ih (service.UpdateBalanceWithdraw fault db acc amount).1 _ hstep row hrow hacc
    rw [this]
    show _ = b - ((if (service.UpdateBalanceWithdraw fault db acc amount).2 = none
      then amount else 0) + (runWithdraws
        (service.UpdateBalanceWithdraw fault db acc amount).1 acc rest).2)
    rw [sub_sub]

/-- A table that holds the same account numbers holds a row for each of
them. -/
theorem exists_row_of_accountNumbers {db db' : DB}
    (h : db'.map (fun row => row.AccountNumber) = db.map (fun row => row.AccountNumber))
    {row : models.Account} (hrow : row ∈ db) :
    ∃ row' ∈ db', row'.AccountNumber = row.AccountNumber := by
  have hmem : row.AccountNumber ∈ db'.map (fun row => row.AccountNumber) := by
    rw [h]; exact List.mem_map.mpr ⟨row, hrow, rfl⟩
  obtain ⟨row', hrow', heq⟩ := List.mem_map.mp hmem
  exact ⟨row', hrow', heq⟩

/-- In a keyed table every row with the number of a given row has that row's
balance. -/
theorem Keyed.uniform {db : DB} (hkey : Keyed db) {row : models.Account} (hrow : row ∈ db) :
    ∀ r ∈ db, r.AccountNumber = row.AccountNumber → r.Balance = row.Balance := by
  intro r hr hacc
  rw [hkey.row_eq hr hrow hacc]

/-- Two executed withdrawals of `a`, one after the other, when every row with
the number has balance `b`, some row has the number and `a ≤ b < 2a`: the
first returns no error, the second returns "insufficient balance", and every
row with the number ends at `b - a`. -/
theorem withdraw_twice (db : DB) (acc : String) (a b : models.Money)
    (hex : ∃ row ∈ db, row.AccountNumber = acc)
    (h : ∀ row ∈ db, row.AccountNumber = acc → row.Balance = b)
    (hle : a ≤ b) (hlt : b < 2 * a) :
    (service.UpdateBalanceWithdraw none db acc a).2 = none ∧
    (service.UpdateBalanceWithdraw none
      (service.UpdateBalanceWithdraw none db acc a).1 acc a).2
        = some (Error.new "insufficient balance") ∧
    (∀ row ∈ (service.UpdateBalanceWithdraw none
      (service.UpdateBalanceWithdraw none db acc a).1 acc a).1,
        row.AccountNumber = acc → row.Balance = b - a) := by
  obtain ⟨wit, hwit, hwacc⟩ := hex
  have hfirst : (repository.UpdateBalanceWithdraw none db acc a).2 = none :=
    withdraw_matched_none db acc a ⟨wit, hwit, hwacc, by rw [h wit hwit hwacc]; exact hle⟩
  have hmid : ∀ row ∈ (repository.UpdateBalanceWithdraw none db acc a).1,
      row.AccountNumber = acc → row.Balance = b - a := by
    have := withdraw_uniform none db acc a b h
    rw [hfirst, if_pos rfl] at this
    exact this
  have hsecond : repository.UpdateBalanceWithdraw none
      (repository.UpdateBalanceWithdraw none db acc a).1 acc a
        = ((repository.UpdateBalanceWithdraw none db acc a).1,
            some (Error.new "insufficient balance")) := by
    apply Prod.ext
    · rw [withdraw_db (repository.UpdateBalanceWithdraw none db acc a).1]
      apply map_eq_self_of_forall
      intro row hrow
      apply if_neg
      intro hc
      simp only [Bool.and_eq_true, beq_iff_eq, decide_eq_true_eq] at hc
      have hbal := hmid row hrow hc.1
      have hge : a ≤ row.Balance := hc.2
      rw [hbal] at hge
      linarith
    · rw [withdraw_err (repository.UpdateBalanceWithdraw none db acc a).1, if_pos]
      apply List.countP_eq_zero.mpr
      intro row hrow hc
      simp only [Bool.and_eq_true, beq_iff_eq, decide_eq_true_eq] at hc
      have hbal := hmid row hrow hc.1
      have hge : a ≤ row.Balance := hc.2
      rw [hbal] at hge
      linarith
  simp only [service_withdraw_eq]
  refine ⟨hfirst, ?_, ?_⟩
  · rw [hsecond]
  · rw [hsecond]; exact hmid

/-- The read after an executed update finds an account as soon as the table
before the update held a row with that number. -/
theorem get_after_withdraw (db : DB) (acc : String) (amount : models.Money)
    (h : ∃ row ∈ db, row.AccountNumber = acc) :
    ∃ account, service.GetAccountByNoRekening none
      (repository.UpdateBalanceWithdraw none db acc amount).1 acc = .ok account := by
  obtain ⟨row, hrow, hacc⟩ := h
  obtain ⟨row', hrow', hacc'⟩ :=
    exists_row_of_accountNumbers (withdraw_accountNumbers none db acc amount) hrow
  have hmem : row' ∈ sqlSelect (fun r => r.AccountNumber == acc)
      (repository.UpdateBalanceWithdraw none db acc amount).1 := by
    unfold sqlSelect
    exact List.mem_filter.mpr ⟨hrow', by simp [hacc', hacc]⟩
  unfold service.GetAccountByNoRekening repository.GetAccountByNoRekening QueryRowContext
  cases hsel : sqlSelect (fun r => r.AccountNumber == acc)
      (repository.UpdateBalanceWithdraw none db acc amount).1 with
  | nil => rw [hsel] at hmem; exact absurd hmem (List.not_mem_nil _)
  | cons account rest => exact ⟨account, rfl⟩

/-- The withdraw handler, when the update returns no error and the read
that follows returns an account. -/
theorem handler_withdraw_ok (db : DB) (acc : String) (amount : models.Money)
    (account : models.Account)
    (hupd : (repository.UpdateBalanceWithdraw none db acc amount).2 = none)
    (hget : service.GetAccountByNoRekening none
      (repository.UpdateBalanceWithdraw none db acc amount).1 acc = .ok account) :
    handler.Withdraw (.ok { NoRekening := acc, Amount := amount }) none none db
      = ((repository.UpdateBalanceWithdraw none db acc amount).1,
          ⟨handler.StatusOK, .BalanceResponse { Saldo := account.Balance }⟩) := by
  unfold handler.Withdraw
  simp only [service_withdraw_eq]
  rcases hres : repository.UpdateBalanceWithdraw none db acc amount with ⟨db', e⟩
  rw [hres] at hupd hget
  simp only at hupd hget
  subst hupd
  simp only [hget]

/-- The withdraw handler, when the update returns an error. -/
theorem handler_withdraw_error (db : DB) (acc : String) (amount : models.Money)
    (err : Error) (db' : DB)
    (hupd : repository.UpdateBalanceWithdraw none db acc amount = (db', some err)) :
    handler.Withdraw (.ok { NoRekening := acc, Amount := amount }) none none db
      = (db', ⟨handler.StatusBadRequest, .ErrorResponse { Remark := err.message }⟩) := by
  unfold handler.Withdraw
  simp only [service_withdraw_eq, hupd]

/-- A registration that returns an account found neither the NIK nor the
phone number of the request in the table. -/
theorem create_ok_fresh {env : service.CreateEnv} {db : DB} {req : dto.AccountRegistration}
    {acct : models.Account} (h : (service.CreateAccount env db req).2 = .ok acct) :
    (∀ row ∈ db, row.NIK ≠ req.NIK) ∧ (∀ row ∈ db, row.PhoneNumber ≠ req.NoHP) := by
  obtain ⟨f₁, f₂, f₃, newID, draw⟩ := env
  unfold service.CreateAccount repository.NIKExist repository.PhoneNumberExist
    repository.CreateAccount QueryRowContext sqlInsert sqlExists at *
  cases f₁ <;> cases f₂ <;> cases f₃ <;>
    cases h₁ : db.any (fun row => row.NIK == req.NIK) <;>
    cases h₂ : db.any (fun row => row.PhoneNumber == req.NoHP) <;>
    simp_all

/-- A withdrawal or a deposit call never changes the NIKs and the phone
numbers the table holds. -/
theorem update_identity (fault : Option Error) (db : DB) (acc : String)
    (amount : models.Money) :
    (repository.UpdateBalanceWithdraw fault db acc amount).1.map
        (fun row => (row.NIK, row.PhoneNumber))
      = db.map (fun row => (row.NIK, row.PhoneNumber)) ∧
    (repository.UpdateBalanceDeposit fault db acc amount).1.map
        (fun row => (row.NIK, row.PhoneNumber))
      = db.map (fun row => (row.NIK, row.PhoneNumber)) := by
  cases fault with
  | some err => rw [withdraw_fault, deposit_fault]; exact ⟨rfl, rfl⟩
  | none =>
    rw [withdraw_db, deposit_db, List.map_map, List.map_map]
    constructor <;>
    · apply List.map_congr_left
      intro row _
      simp only [Function.comp_apply]
      split <;> rfl

/-- NIKs pairwise distinct and phone numbers pairwise distinct. -/
theorem identity_of_pairs {db db' : DB}
    (h : db'.map (fun row => (row.NIK, row.PhoneNumber))
      = db.map (fun row => (row.NIK, row.PhoneNumber)))
    (hnik : (db.map (fun row => row.NIK)).Nodup)
    (hphone : (db.map (fun row => row.PhoneNumber)).Nodup) :
    (db'.map (fun row => row.NIK)).Nodup ∧ (db'.map (fun row => row.PhoneNumber)).Nodup := by
  have h₁ : db'.map (fun row => row.NIK) = db.map (fun row => row.NIK) := by
    have := congrArg (List.map Prod.fst) h
    simpa [List.map_map, Function.comp_def] using this
  have h₂ : db'.map (fun row => row.PhoneNumber) = db.map (fun row => row.PhoneNumber) := by
    have := congrArg (List.map Prod.snd) h
    simpa [List.map_map, Function.comp_def] using this
  rw [h₁, h₂]
  exact ⟨hnik, hphone⟩

/-- One call keeps the NIKs pairwise distinct and the phone numbers pairwise
distinct. -/
theorem step_identity (db : DB) (c : Call)
    (hnik : (db.map (fun row => row.NIK)).Nodup)
    (hphone : (db.map (fun row => row.PhoneNumber)).Nodup) :
    ((step db c).map (fun row => row.NIK)).Nodup ∧
    ((step db c).map (fun row => row.PhoneNumber)).Nodup := by
  cases c with
  | CreateAccount env req =>
    show ((service.CreateAccount env db req).1.map (fun row => row.NIK)).Nodup ∧
      ((service.CreateAccount env db req).1.map (fun row => row.PhoneNumber)).Nodup
    rcases hres : (service.CreateAccount env db req).2 with err | acct
    · rw [create_error hres]; exact ⟨hnik, hphone⟩
    · obtain ⟨hdb, hacct⟩ := create_ok hres
      obtain ⟨hfn, hfp⟩ := create_ok_fresh hres
      have hn : acct.NIK = req.NIK := by rw [hacct]
      have hp : acct.PhoneNumber = req.NoHP := by rw [hacct]
      rw [hdb, List.map_append, List.map_append]
      constructor
      · apply List.Nodup.append hnik (List.nodup_singleton _)
        intro nik hin hnew
        obtain ⟨row, hrow, rfl⟩ := List.mem_map.mp hin
        have hnew' : row.NIK = acct.NIK := List.mem_singleton.mp hnew
        exact hfn row hrow (hnew'.trans hn)
      · apply List.Nodup.append hphone (List.nodup_singleton _)
        intro phone hin hnew
        obtain ⟨row, hrow, rfl⟩ := List.mem_map.mp hin
        have hnew' : row.PhoneNumber = acct.PhoneNumber := List.mem_singleton.mp hnew
        exact hfp row hrow (hnew'.trans hp)
  | UpdateBalanceWithdraw fault acc amount =>
    show ((service.UpdateBalanceWithdraw fault db acc amount).1.map _).Nodup ∧
      ((service.UpdateBalanceWithdraw fault db acc amount).1.map _).Nodup
    rw [service_withdraw_eq]
    exact identity_of_pairs (update_identity fault db acc amount).1 hnik hphone
  | UpdateBalanceDeposit fault acc amount =>
    show ((service.UpdateBalanceDeposit fault db acc amount).1.map _).Nodup ∧
      ((service.UpdateBalanceDeposit fault db acc amount).1.map _).Nodup
    rw [service_deposit_eq]
    exact identity_of_pairs (update_identity fault db acc amount).2 hnik hphone

/-- A sequence of calls keeps the NIKs pairwise distinct and the phone
numbers pairwise distinct. -/
theorem run_identity (calls : List Call) (db : DB)
    (hnik : (db.map (fun row => row.NIK)).Nodup)
    (hphone : (db.map (fun row => row.PhoneNumber)).Nodup) :
    ((run db calls).map (fun row => row.NIK)).Nodup ∧
    ((run db calls).map (fun row => row.PhoneNumber)).Nodup := by
  induction calls generalizing db with
  | nil => exact ⟨hnik, hphone⟩
  | cons c rest ih =>
    show ((run (step db c) rest).map _).Nodup ∧ ((run (step db c) rest).map _).Nodup
    exact ih (step db c) (step_identity db c hnik hphone).1 (step_identity db c hnik hphone).2

/-! ## Withdrawal and deposit, one call -/

/-- C1: when some account carries the number and its balance is at least
the amount, an executed `UpdateBalanceWithdraw` (repository and service alike)
returns no error; the table keeps its rows in place, every row keeps its id,
account number, name, NIK and phone number, a row with that number and enough
balance has its balance lowered by exactly the amount, and every row with
another number is unchanged. -/
theorem C1_withdraw_success (db : DB) (acc : String) (amount : models.Money)
    (h : ∃ row ∈ db, row.AccountNumber = acc ∧ row.Balance ≥ amount) :
    (repository.UpdateBalanceWithdraw none db acc amount).2 = none ∧
    service.UpdateBalanceWithdraw none db acc amount
      = repository.UpdateBalanceWithdraw none db acc amount ∧
    (repository.UpdateBalanceWithdraw none db acc amount).1.length = db.length ∧
    ∀ (i : Nat) (old : models.Account), db[i]? = some old →
      ∃ new, (repository.UpdateBalanceWithdraw none db acc amount).1[i]? = some new ∧
        new.ID = old.ID ∧ new.AccountNumber = old.AccountNumber ∧ new.Name = old.Name ∧
        new.NIK = old.NIK ∧ new.PhoneNumber = old.PhoneNumber ∧
        (old.AccountNumber = acc → old.Balance ≥ amount →
          new.Balance = old.Balance - amount) ∧
        (old.AccountNumber ≠ acc → new = old) := by
  refine ⟨?_, service_withdraw_eq _ _ _ _, ?_, ?_⟩
  · exact withdraw_matched_none db acc amount h
  · rw [withdraw_db, List.length_map]
  · intro i old hold
    rw [withdraw_db, List.getElem?_map, hold]
    refine ⟨_, rfl, ?_⟩
    by_cases hacc : old.AccountNumber = acc <;> by_cases hbal : old.Balance ≥ amount <;>
      simp [hacc, hbal]

/-- C1, at a table of one account with balance 100 and the amount 30. -/
theorem C1_withdraw_success_witness :
    (∃ row ∈ [sampleRow "1234567890" 100],
        row.AccountNumber = "1234567890" ∧ row.Balance ≥ 30) ∧
    (repository.UpdateBalanceWithdraw none [sampleRow "1234567890" 100] "1234567890" 30).2
      = none :=
  ⟨⟨_, List.mem_singleton.mpr rfl, by decide⟩,
   (C1_withdraw_success [sampleRow "1234567890" 100] "1234567890" 30
      ⟨_, List.mem_singleton.mpr rfl, by decide⟩).1⟩

/-- C2: when no account carries the number, or every account that carries
it has a balance below the amount, an executed `UpdateBalanceWithdraw`
(repository and service alike) returns the one error "insufficient balance" in
both cases and the table is exactly what it was. -/
theorem C2_withdraw_failure (db : DB) (acc : String) (amount : models.Money)
    (h : (¬ ∃ row ∈ db, row.AccountNumber = acc) ∨
         (∀ row ∈ db, row.AccountNumber = acc → row.Balance < amount)) :
    repository.UpdateBalanceWithdraw none db acc amount
      = (db, some (Error.new "insufficient balance")) ∧
    service.UpdateBalanceWithdraw none db acc amount
      = (db, some (Error.new "insufficient balance")) := by
  have hno : ∀ row ∈ db,
      ¬ ((row.AccountNumber == acc && decide (row.Balance ≥ amount)) = true) := by
    intro row hmem hc
    simp only [Bool.and_eq_true, beq_iff_eq, decide_eq_true_eq] at hc
    rcases h with h | h
    · exact h ⟨row, hmem, hc.1⟩
    · exact absurd hc.2 (not_le.mpr (h row hmem hc.1))
  have hrepo : repository.UpdateBalanceWithdraw none db acc amount
      = (db, some (Error.new "insufficient balance")) := by
    apply Prod.ext
    · rw [withdraw_db]
      exact map_eq_self_of_forall (fun row hmem => if_neg (hno row hmem))
    · rw [withdraw_err, if_pos (List.countP_eq_zero.mpr hno)]
  exact ⟨hrepo, by rw [service_withdraw_eq, hrepo]⟩

/-- C2, at balance 100 and amount 150: the call fails and the balance is
still 100. -/
theorem C2_withdraw_failure_witness :
    ((¬ ∃ row ∈ [sampleRow "1234567890" 100], row.AccountNumber = "1234567890") ∨
      (∀ row ∈ [sampleRow "1234567890" 100],
        row.AccountNumber = "1234567890" → row.Balance < 150)) ∧
    service.UpdateBalanceWithdraw none [sampleRow "1234567890" 100] "1234567890" 150
      = ([sampleRow "1234567890" 100], some (Error.new "insufficient balance")) :=
  ⟨Or.inr (by decide),
   (C2_withdraw_failure [sampleRow "1234567890" 100] "1234567890" 150
      (Or.inr (by decide))).2⟩

/-- C3: when some account carries the number, an executed
`UpdateBalanceDeposit` (repository and service alike) returns no error,
whatever the balances and the amount are; the table keeps its rows in place,
every row keeps its id, account number, name, NIK and phone number, every row
with that number has its balance raised by exactly the amount, and every row
with another number is unchanged. -/
theorem C3_deposit_success (db : DB) (acc : String) (amount : models.Money)
    (h : ∃ row ∈ db, row.AccountNumber = acc) :
    (repository.UpdateBalanceDeposit none db acc amount).2 = none ∧
    service.UpdateBalanceDeposit none db acc amount
      = repository.UpdateBalanceDeposit none db acc amount ∧
    (repository.UpdateBalanceDeposit none db acc amount).1.length = db.length ∧
    ∀ (i : Nat) (old : models.Account), db[i]? = some old →
      ∃ new, (repository.UpdateBalanceDeposit none db acc amount).1[i]? = some new ∧
        new.ID = old.ID ∧ new.AccountNumber = old.AccountNumber ∧ new.Name = old.Name ∧
        new.NIK = old.NIK ∧ new.PhoneNumber = old.PhoneNumber ∧
        (old.AccountNumber = acc → new.Balance = old.Balance + amount) ∧
        (old.AccountNumber ≠ acc → new = old) := by
  refine ⟨?_, service_deposit_eq _ _ _ _, ?_, ?_⟩
  · rw [deposit_err]
    obtain ⟨row, hmem, hacc⟩ := h
    have hpos : 0 < db.countP (fun row => row.AccountNumber == acc) :=
      List.countP_pos_iff.mpr ⟨row, hmem, by simp [hacc]⟩
    rw [if_neg (by omega)]
  · rw [deposit_db, List.length_map]
  · intro i old hold
    rw [deposit_db, List.getElem?_map, hold]
    refine ⟨_, rfl, ?_⟩
    by_cases hacc : old.AccountNumber = acc <;> simp [hacc]

/-- C3, at a table of one account with balance 0 and the amount 25. -/
theorem C3_deposit_success_witness :
    (∃ row ∈ [sampleRow "1234567890" 0], row.AccountNumber = "1234567890") ∧
    (repository.UpdateBalanceDeposit none [sampleRow "1234567890" 0] "1234567890" 25).2
      = none :=
  ⟨⟨_, List.mem_singleton.mpr rfl, rfl⟩,
   (C3_deposit_success [sampleRow "1234567890" 0] "1234567890" 25
      ⟨_, List.mem_singleton.mpr rfl, rfl⟩).1⟩

/-- C4: when no account carries the number, an executed
`UpdateBalanceDeposit` (repository and service alike) returns the error
"saldo not updated" and the table is exactly what it was. -/
theorem C4_deposit_not_found (db : DB) (acc : String) (amount : models.Money)
    (h : ∀ row ∈ db, row.AccountNumber ≠ acc) :
    repository.UpdateBalanceDeposit none db acc amount
      = (db, some (Error.new "saldo not updated")) ∧
    service.UpdateBalanceDeposit none db acc amount
      = (db, some (Error.new "saldo not updated")) := by
  have hno : ∀ row ∈ db, ¬ ((row.AccountNumber == acc) = true) := by
    intro row hmem hc
    exact h row hmem (beq_iff_eq.mp hc)
  have hrepo : repository.UpdateBalanceDeposit none db acc amount
      = (db, some (Error.new "saldo not updated")) := by
    apply Prod.ext
    · rw [deposit_db]
      exact map_eq_self_of_forall (fun row hmem => if_neg (hno row hmem))
    · rw [deposit_err, if_pos (List.countP_eq_zero.mpr hno)]
  exact ⟨hrepo, by rw [service_deposit_eq, hrepo]⟩

/-- C4, at a table whose only account has another number. -/
theorem C4_deposit_not_found_witness :
    (∀ row ∈ [sampleRow "1234567890" 100], row.AccountNumber ≠ "0000000000") ∧
    service.UpdateBalanceDeposit none [sampleRow "1234567890" 100] "0000000000" 50
      = ([sampleRow "1234567890" 100], some (Error.new "saldo not updated")) :=
  ⟨by decide,
   (C4_deposit_not_found [sampleRow "1234567890" 100] "0000000000" 50 (by decide)).2⟩

/-! ## Withdrawal followed by deposit -/

/-- C5: in a keyed table, when `UpdateBalanceWithdraw(acc, amount)` is
executed and returns no error, `UpdateBalanceDeposit(acc, amount)` executed
right after it returns no error as well and the table is again exactly the
original one (service and repository alike). -/
theorem C5_withdraw_then_deposit (db : DB) (acc : String) (amount : models.Money)
    (hkey : Keyed db)
    (hw : (service.UpdateBalanceWithdraw none db acc amount).2 = none) :
    service.UpdateBalanceDeposit none
        (service.UpdateBalanceWithdraw none db acc amount).1 acc amount = (db, none) ∧
    repository.UpdateBalanceDeposit none
        (repository.UpdateBalanceWithdraw none db acc amount).1 acc amount = (db, none) := by
  rw [service_withdraw_eq] at hw
  obtain ⟨wit, hwit, hwacc, hwbal⟩ := withdraw_none_matched db acc amount hw
  have hall : ∀ row ∈ db, row.AccountNumber = acc → row.Balance ≥ amount := by
    intro row hrow hacc
    have : row = wit := hkey.row_eq hrow hwit (hacc.trans hwacc.symm)
    rw [this]; exact hwbal
  have hrepo : repository.UpdateBalanceDeposit none
      (repository.UpdateBalanceWithdraw none db acc amount).1 acc amount = (db, none) := by
    apply Prod.ext
    · rw [deposit_db, withdraw_db, List.map_map]
      apply map_eq_self_of_forall
      intro row hrow
      by_cases hacc : row.AccountNumber = acc
      · have hb := hall row hrow hacc
        cases row
        simp_all
      · simp [hacc]
    · rw [deposit_err, if_neg]
      have hpos : 0 < (repository.UpdateBalanceWithdraw none db acc amount).1.countP
          (fun row => row.AccountNumber == acc) := by
        rw [withdraw_db]
        apply List.countP_pos_iff.mpr
        refine ⟨_, List.mem_map.mpr ⟨wit, hwit, rfl⟩, ?_⟩
        simp [hwacc, hwbal]
      omega
  exact ⟨by rw [service_deposit_eq, service_withdraw_eq, hrepo], hrepo⟩

/-- C5, at a table of one account with balance 100 and the amount 30. -/
theorem C5_withdraw_then_deposit_witness :
    Keyed [sampleRow "1234567890" 100] ∧
    (service.UpdateBalanceWithdraw none [sampleRow "1234567890" 100] "1234567890" 30).2
      = none ∧
    service.UpdateBalanceDeposit none
        (service.UpdateBalanceWithdraw none [sampleRow "1234567890" 100] "1234567890" 30).1
        "1234567890" 30 = ([sampleRow "1234567890" 100], none) :=
  ⟨by decide, by decide,
   (C5_withdraw_then_deposit [sampleRow "1234567890" 100] "1234567890" 30
      (by decide) (by decide)).1⟩

/-! ## Balances never below zero -/

/-- C6, as stated, fails: from the empty table, a registration followed by a
deposit of minus five on the new account leaves that account with the balance
minus five. -/
theorem C6_negative_deposit_counterexample :
    run [] negativeDepositCalls = [sampleRow "0000000000" (-5)] ∧
    ¬ (∀ calls : List Call, ∀ row ∈ run [] calls, 0 ≤ row.Balance) := by
  have hrun : run [] negativeDepositCalls = [sampleRow "0000000000" (-5)] := by decide
  refine ⟨hrun, fun hall => ?_⟩
  have := hall negativeDepositCalls (sampleRow "0000000000" (-5))
    (by rw [hrun]; exact List.mem_singleton.mpr rfl)
  exact absurd this (by decide)

/-- C6, amended: in every table reached from the empty one by a finite
sequence of `CreateAccount`, `UpdateBalanceWithdraw` and `UpdateBalanceDeposit`
calls, with arbitrary arguments and outcomes except that no deposit has a
negative amount, every balance is at least zero. -/
theorem C6_balance_nonneg_invariant (calls : List Call)
    (h : ∀ c ∈ calls, c.depositNonneg) :
    ∀ row ∈ run [] calls, 0 ≤ row.Balance :=
  run_nonneg calls [] h (fun _ hrow => absurd hrow (List.not_mem_nil _))

/-- C6 amended, at a sequence with a failing and a negative withdrawal. -/
theorem C6_balance_nonneg_invariant_witness :
    (∀ c ∈ mixedCalls, c.depositNonneg) ∧
    run [] mixedCalls = [sampleRow "0000000000" 45] ∧
    ∀ row ∈ run [] mixedCalls, 0 ≤ row.Balance :=
  ⟨by decide, by decide, C6_balance_nonneg_invariant mixedCalls (by decide)⟩

/-- C7: in a keyed table whose balances are all at least zero, for every
list of `UpdateBalanceWithdraw` calls on one account, each applied as one
step, with arbitrary amounts and in whatever order the list gives: after every
step every balance is at least zero, the account is still there, and its
final balance is the initial balance less the sum of the amounts of the calls
that returned no error. -/
theorem C7_withdrawals_never_negative (db : DB) (acc : String)
    (calls : List (Option Error × models.Money)) (row : models.Account)
    (hnonneg : ∀ r ∈ db, 0 ≤ r.Balance) (hkey : Keyed db)
    (hrow : row ∈ db) (hacc : row.AccountNumber = acc) :
    (∀ k : Nat, ∀ r ∈ (runWithdraws db acc (calls.take k)).1, 0 ≤ r.Balance) ∧
    (∃ r ∈ (runWithdraws db acc calls).1, r.AccountNumber = acc) ∧
    (∀ r ∈ (runWithdraws db acc calls).1, r.AccountNumber = acc →
      r.Balance = row.Balance - (runWithdraws db acc calls).2) := by
  refine ⟨fun k => runWithdraws_nonneg acc (calls.take k) db hnonneg, ?_, ?_⟩
  · obtain ⟨r, hr, hr'⟩ :=
      exists_row_of_accountNumbers (runWithdraws_accountNumbers acc calls db) hrow
    exact ⟨r, hr, hr'.trans hacc⟩
  · apply runWithdraws_uniform acc calls db row.Balance
    intro r hr hracc
    exact hkey.uniform hrow r hr (hracc.trans hacc.symm)

/-- C7, at balance 100 and withdrawals that sum to more than 100: those of
60, 30 are applied, the others fail, and the balance ends at 10. -/
theorem C7_withdrawals_never_negative_witness :
    (∀ r ∈ [sampleRow "1234567890" 100], 0 ≤ r.Balance) ∧
    Keyed [sampleRow "1234567890" 100] ∧
    runWithdraws [sampleRow "1234567890" 100] "1234567890" sampleWithdraws
      = ([sampleRow "1234567890" 10], 90) ∧
    ∀ k : Nat, ∀ r ∈ (runWithdraws [sampleRow "1234567890" 100] "1234567890"
      (sampleWithdraws.take k)).1, 0 ≤ r.Balance :=
  ⟨by decide, by decide, by decide,
   (C7_withdrawals_never_negative [sampleRow "1234567890" 100] "1234567890"
      sampleWithdraws (sampleRow "1234567890" 100) (by decide) (by decide)
      (List.mem_singleton.mpr rfl) rfl).1⟩

/-! ## Two withdrawals racing on one account -/

/-- C8: two concurrent withdrawals of the same amount `a` from the account
of a keyed table whose balance `b` satisfies `a ≤ b < 2a`, `a > 0`: whichever
request has its statement run first, exactly one of the two returns no error,
the other returns "insufficient balance", and the account ends with the
balance `b - a`. -/
theorem C8_concurrent_withdrawals (first : Thread) (db : DB) (acc : String)
    (a : models.Money) (row : models.Account) (hkey : Keyed db)
    (hrow : row ∈ db) (hacc : row.AccountNumber = acc)
    (_hpos : 0 < a) (hle : a ≤ row.Balance) (hlt : row.Balance < 2 * a) :
    (((raceWithdraw first db acc a a).2.1 = none ∧
        (raceWithdraw first db acc a a).2.2 = some (Error.new "insufficient balance")) ∨
      ((raceWithdraw first db acc a a).2.1 = some (Error.new "insufficient balance") ∧
        (raceWithdraw first db acc a a).2.2 = none)) ∧
    (∃ r ∈ (raceWithdraw first db acc a a).1, r.AccountNumber = acc) ∧
    (∀ r ∈ (raceWithdraw first db acc a a).1, r.AccountNumber = acc →
      r.Balance = row.Balance - a) := by
  have huni : ∀ r ∈ db, r.AccountNumber = acc → r.Balance = row.Balance :=
    fun r hr hracc => hkey.uniform hrow r hr (hracc.trans hacc.symm)
  obtain ⟨h₁, h₂, h₃⟩ := withdraw_twice db acc a row.Balance ⟨row, hrow, hacc⟩ huni hle hlt
  have hnums : (service.UpdateBalanceWithdraw none
      (service.UpdateBalanceWithdraw none db acc a).1 acc a).1.map
        (fun r => r.AccountNumber) = db.map (fun r => r.AccountNumber) := by
    simp only [service_withdraw_eq, withdraw_accountNumbers]
  have hthere : ∃ r ∈ (service.UpdateBalanceWithdraw none
      (service.UpdateBalanceWithdraw none db acc a).1 acc a).1, r.AccountNumber = acc := by
    obtain ⟨r, hr, hr'⟩ := exists_row_of_accountNumbers hnums hrow
    exact ⟨r, hr, hr'.trans hacc⟩
  cases first with
  | A => exact ⟨Or.inl ⟨h₁, h₂⟩, hthere, h₃⟩
  | B => exact ⟨Or.inr ⟨h₂, h₁⟩, hthere, h₃⟩

/-- C8, at balance 100 and two withdrawals of 60, request B served first:
B succeeds, A fails, and the balance ends at 40. -/
theorem C8_concurrent_withdrawals_witness :
    Keyed [sampleRow "1234567890" 100] ∧
    (0 : models.Money) < 60 ∧ (60 : models.Money) ≤ (sampleRow "1234567890" 100).Balance ∧
    (sampleRow "1234567890" 100).Balance < 2 * 60 ∧
    raceWithdraw .B [sampleRow "1234567890" 100] "1234567890" 60 60
      = ([sampleRow "1234567890" 40], some (Error.new "insufficient balance"), none) ∧
    ∀ r ∈ (raceWithdraw .B [sampleRow "1234567890" 100] "1234567890" 60 60).1,
      r.AccountNumber = "1234567890" → r.Balance = (sampleRow "1234567890" 100).Balance - 60 :=
  ⟨by decide, by decide, by decide, by decide, by decide,
   (C8_concurrent_withdrawals .B [sampleRow "1234567890" 100] "1234567890" 60
      (sampleRow "1234567890" 100) (by decide) (List.mem_singleton.mpr rfl) rfl
      (by decide) (by decide) (by decide)).2.2⟩

/-! ## Registration -/

/-- C9: when a `CreateAccount` call has returned an account, a following
`CreateAccount` call whose request carries the same NIK, whatever its name,
its phone number, the id the store would assign and the draws are, returns the
error "NIK already exists" once its NIK query is executed, and the table is
the one the first registration left. -/
theorem C9_duplicate_nik_rejected (env₁ env₂ : service.CreateEnv) (db : DB)
    (req₁ req₂ : dto.AccountRegistration) (acct : models.Account)
    (hnik : req₂.NIK = req₁.NIK)
    (hfirst : (service.CreateAccount env₁ db req₁).2 = .ok acct) :
    service.CreateAccount { env₂ with nikFault := none }
        (service.CreateAccount env₁ db req₁).1 req₂
      = ((service.CreateAccount env₁ db req₁).1, .error (Error.new "NIK already exists")) := by
  obtain ⟨hdb, hacct⟩ := create_ok hfirst
  have hany : (db ++ [acct]).any (fun row => row.NIK == req₂.NIK) = true := by
    rw [List.any_eq_true]
    exact ⟨acct, List.mem_append.mpr (Or.inr (List.mem_singleton.mpr rfl)),
      by rw [hacct, hnik]; simp⟩
  rw [hdb]
  simp only [service.CreateAccount, repository.NIKExist, QueryRowContext, sqlExists, hany]

/-- C9, at the empty table: the first registration returns its account, the
second one with the same NIK is rejected. -/
theorem C9_duplicate_nik_rejected_witness :
    sampleReqSameNIK.NIK = sampleReq.NIK ∧
    (service.CreateAccount sampleEnv [] sampleReq).2 = .ok (sampleRow "0000000000" 0) ∧
    service.CreateAccount { sampleEnv with nikFault := none }
        (service.CreateAccount sampleEnv [] sampleReq).1 sampleReqSameNIK
      = ([sampleRow "0000000000" 0], .error (Error.new "NIK already exists")) :=
  ⟨rfl, rfl,
   C9_duplicate_nik_rejected sampleEnv sampleEnv [] sampleReq sampleReqSameNIK
     (sampleRow "0000000000" 0) rfl rfl⟩

/-- C10: when no account holds the request's NIK and none holds its phone
number, and the two queries and the insert are executed, `CreateAccount`
returns an account with balance 0, with the request's name, NIK and phone
number, with the generated account number and the id the store assigned, and
the table afterwards is the old table, unchanged, followed by this account. -/
theorem C10_create_account (db : DB) (req : dto.AccountRegistration) (newID : Int)
    (draw : Nat → Fin 10)
    (hnik : ∀ row ∈ db, row.NIK ≠ req.NIK)
    (hphone : ∀ row ∈ db, row.PhoneNumber ≠ req.NoHP) :
    ∃ acct : models.Account,
      service.CreateAccount
          { nikFault := none, phoneFault := none, insertFault := none,
            newID := newID, draw := draw } db req
        = (db ++ [acct], .ok acct) ∧
      acct.Balance = 0 ∧ acct.Name = req.Nama ∧ acct.NIK = req.NIK ∧
      acct.PhoneNumber = req.NoHP ∧
      acct.AccountNumber = service.generateAccountNumber draw ∧ acct.ID = newID := by
  have h₁ : db.any (fun row => row.NIK == req.NIK) = false := by
    rw [List.any_eq_false]
    intro row hrow
    simpa using hnik row hrow
  have h₂ : db.any (fun row => row.PhoneNumber == req.NoHP) = false := by
    rw [List.any_eq_false]
    intro row hrow
    simpa using hphone row hrow
  refine ⟨{ ID := newID, AccountNumber := service.generateAccountNumber draw,
             Name := req.Nama, NIK := req.NIK, PhoneNumber := req.NoHP, Balance := 0,
             CreatedAt := 0, UpdatedAt := 0 }, ?_, rfl, rfl, rfl, rfl, rfl, rfl⟩
  simp only [service.CreateAccount, repository.NIKExist, repository.PhoneNumberExist,
    repository.CreateAccount, QueryRowContext, sqlExists, sqlInsert, h₁, h₂]

/-- C10, at a table holding one other account. -/
theorem C10_create_account_witness :
    (∀ row ∈ [sampleRow "1234567890" 100], row.NIK ≠ "3202") ∧
    (∀ row ∈ [sampleRow "1234567890" 100], row.PhoneNumber ≠ "0899") ∧
    ∃ acct : models.Account,
      service.CreateAccount
          { nikFault := none, phoneFault := none, insertFault := none,
            newID := 2, draw := fun i => if i = 0 then 9 else 0 }
          [sampleRow "1234567890" 100]
          { Nama := "Siti", NIK := "3202", NoHP := "0899" }
        = ([sampleRow "1234567890" 100] ++ [acct], .ok acct) ∧
      acct.Balance = 0 ∧ acct.Name = "Siti" ∧
      acct.NIK = "3202" ∧ acct.PhoneNumber = "0899" ∧
      acct.AccountNumber = service.generateAccountNumber (fun i => if i = 0 then 9 else 0) ∧
      acct.ID = 2 :=
  ⟨by decide, by decide,
   C10_create_account [sampleRow "1234567890" 100]
     { Nama := "Siti", NIK := "3202", NoHP := "0899" } 2
     (fun i => if i = 0 then 9 else 0) (by decide) (by decide)⟩

/-! ## Account numbers -/

/-- C11: for every outcome of the ten draws, `generateAccountNumber`
returns a string of exactly 10 characters, each of them one of the ASCII
digits '0' to '9', and its `i`-th character is the decimal digit of the `i`-th
draw. -/
theorem C11_generateAccountNumber_digits (draw : Nat → Fin 10) :
    (service.generateAccountNumber draw).length = 10 ∧
    (∀ c ∈ (service.generateAccountNumber draw).data, '0' ≤ c ∧ c ≤ '9') ∧
    (∀ i : Nat, i < 10 →
      (service.generateAccountNumber draw).data[i]?
        = some (Char.ofNat ('0'.toNat + (draw i).val))) := by
  have hdigit : ∀ d : Fin 10,
      toString d.val = String.singleton (Char.ofNat ('0'.toNat + d.val)) := by decide
  have hrange : ∀ d : Fin 10,
      '0' ≤ Char.ofNat ('0'.toNat + d.val) ∧ Char.ofNat ('0'.toNat + d.val) ≤ '9' := by
    decide
  have hgen : service.generateAccountNumber draw
      = String.mk ((List.range 10).map (fun i => Char.ofNat ('0'.toNat + (draw i).val))) := by
    have hlist : List.range 10 = [0, 1, 2, 3, 4, 5, 6, 7, 8, 9] := by decide
    unfold service.generateAccountNumber
    rw [hlist]
    simp only [List.foldl_cons, List.foldl_nil, hdigit, List.map_cons, List.map_nil]
    rfl
  rw [hgen]
  refine ⟨by simp [String.length], ?_, ?_⟩
  · intro c hc
    obtain ⟨i, _, rfl⟩ := List.mem_map.mp hc
    exact hrange (draw i)
  · intro i hi
    simp [List.getElem?_map, List.getElem?_range hi]

/-! ## Timestamps -/

/-- C12, as stated, fails: a withdrawal of 30 and a deposit of 30 on an
account with balance 100 and `UpdatedAt = 0`, performed at time 1, both return
no error and both leave `UpdatedAt` at 0. -/
theorem C12_updatedAt_refreshed_counterexample :
    service.UpdateBalanceWithdraw none [sampleRow "1234567890" 100] "1234567890" 30
      = ([sampleRow "1234567890" 70], none) ∧
    service.UpdateBalanceDeposit none [sampleRow "1234567890" 100] "1234567890" 30
      = ([sampleRow "1234567890" 130], none) ∧
    (sampleRow "1234567890" 70).UpdatedAt = 0 ∧ (sampleRow "1234567890" 130).UpdatedAt = 0 ∧
    ¬ (∀ (t : models.Time) (db : DB) (acc : String) (amount : models.Money),
        (service.UpdateBalanceWithdraw none db acc amount).2 = none →
        ∀ row ∈ (service.UpdateBalanceWithdraw none db acc amount).1,
          row.AccountNumber = acc → row.UpdatedAt = t) ∧
    ¬ (∀ (t : models.Time) (db : DB) (acc : String) (amount : models.Money),
        (service.UpdateBalanceDeposit none db acc amount).2 = none →
        ∀ row ∈ (service.UpdateBalanceDeposit none db acc amount).1,
          row.AccountNumber = acc → row.UpdatedAt = t) := by
  refine ⟨by decide, by decide, rfl, rfl, fun hall => ?_, fun hall => ?_⟩
  · have := hall 1 [sampleRow "1234567890" 100] "1234567890" 30 (by decide)
      (sampleRow "1234567890" 70) (by decide) rfl
    exact absurd this (by decide)
  · have := hall 1 [sampleRow "1234567890" 100] "1234567890" 30 (by decide)
      (sampleRow "1234567890" 130) (by decide) rfl
    exact absurd this (by decide)

/-- C12, amended: `UpdateBalanceWithdraw` and `UpdateBalanceDeposit` take no
time and write the balance only: whatever the outcome, every row of the table
keeps the `UpdatedAt` and the `CreatedAt` it had, row by row. -/
theorem C12_updatedAt_unchanged (fault : Option Error) (db : DB) (acc : String)
    (amount : models.Money) :
    (service.UpdateBalanceWithdraw fault db acc amount).1.map
        (fun row => (row.UpdatedAt, row.CreatedAt))
      = db.map (fun row => (row.UpdatedAt, row.CreatedAt)) ∧
    (service.UpdateBalanceDeposit fault db acc amount).1.map
        (fun row => (row.UpdatedAt, row.CreatedAt))
      = db.map (fun row => (row.UpdatedAt, row.CreatedAt)) := by
  rw [service_withdraw_eq, service_deposit_eq]
  cases fault with
  | some err => rw [withdraw_fault, deposit_fault]; exact ⟨rfl, rfl⟩
  | none =>
    rw [withdraw_db, deposit_db, List.map_map, List.map_map]
    constructor <;>
    · apply List.map_congr_left
      intro row _
      simp only [Function.comp_apply]
      split <;> rfl

/-! ## Amounts that are not positive -/

/-- C13, as stated, fails: a withdraw request for minus five on an
account with balance 100 is answered with status 200 and leaves the balance at
105, and a request for zero is answered with status 200 as well. -/
theorem C13_nonpositive_withdraw_counterexample :
    handler.Withdraw (.ok negativeWithdrawRequest) none none [sampleRow "1234567890" 100]
      = ([sampleRow "1234567890" 105],
          ⟨handler.StatusOK, .BalanceResponse { Saldo := 105 }⟩) ∧
    handler.Withdraw (.ok zeroWithdrawRequest) none none [sampleRow "1234567890" 100]
      = ([sampleRow "1234567890" 100],
          ⟨handler.StatusOK, .BalanceResponse { Saldo := 100 }⟩) ∧
    ¬ (∀ (db : DB) (acc : String) (amount : models.Money), amount ≤ 0 →
        (handler.Withdraw (.ok { NoRekening := acc, Amount := amount }) none none db).1 = db ∧
        (handler.Withdraw (.ok { NoRekening := acc, Amount := amount }) none none db).2.Status
          = handler.StatusBadRequest) := by
  refine ⟨by decide, by decide, fun hall => ?_⟩
  have := (hall [sampleRow "1234567890" 100] "1234567890" (-5) (by decide)).2
  exact absurd this (by decide)

/-- C13, amended: the withdraw path has no check on the sign of the
amount.  For an amount that is zero or negative the request reaches the
conditional update: when some account carries the number with a balance at
least the amount, the handler answers with status 200, such an account gets
the balance `balance - amount`, no balance is lowered and rows with another
number are unchanged; when no account carries the number with such a balance,
the handler answers with status 400 and the remark "insufficient balance", and
the table is exactly what it was. -/
theorem C13_withdraw_nonpositive_amount (db : DB) (acc : String) (amount : models.Money)
    (hamount : amount ≤ 0) :
    ((∃ row ∈ db, row.AccountNumber = acc ∧ row.Balance ≥ amount) →
      (handler.Withdraw (.ok { NoRekening := acc, Amount := amount }) none none db).2.Status
        = handler.StatusOK ∧
      ∀ (i : Nat) (old : models.Account), db[i]? = some old →
        ∃ new,
          (handler.Withdraw (.ok { NoRekening := acc, Amount := amount }) none none db).1[i]?
            = some new ∧
          old.Balance ≤ new.Balance ∧
          (old.AccountNumber = acc → old.Balance ≥ amount →
            new.Balance = old.Balance - amount) ∧
          (old.AccountNumber ≠ acc → new = old)) ∧
    ((∀ row ∈ db, row.AccountNumber = acc → row.Balance < amount) →
      handler.Withdraw (.ok { NoRekening := acc, Amount := amount }) none none db
        = (db, ⟨handler.StatusBadRequest,
            .ErrorResponse { Remark := "insufficient balance" }⟩)) := by
  constructor
  · intro hex
    have hupd := withdraw_matched_none db acc amount hex
    obtain ⟨row, hrow, hacc, _⟩ := hex
    obtain ⟨account, hget⟩ := get_after_withdraw db acc amount ⟨row, hrow, hacc⟩
    rw [handler_withdraw_ok db acc amount account hupd hget]
    refine ⟨rfl, ?_⟩
    intro i old hold
    show ∃ new, (repository.UpdateBalanceWithdraw none db acc amount).1[i]? = some new ∧ _
    rw [withdraw_db, List.getElem?_map, hold]
    refine ⟨_, rfl, ?_⟩
    by_cases hoacc : old.AccountNumber = acc <;> by_cases hbal : old.Balance ≥ amount <;>
      simp [hoacc, hbal, hamount]
  · intro hlow
    have hno : ∀ row ∈ db,
        ¬ ((row.AccountNumber == acc && decide (row.Balance ≥ amount)) = true) := by
      intro row hmem hc
      simp only [Bool.and_eq_true, beq_iff_eq, decide_eq_true_eq] at hc
      exact absurd hc.2 (not_le.mpr (hlow row hmem hc.1))
    have hrepo : repository.UpdateBalanceWithdraw none db acc amount
        = (db, some (Error.new "insufficient balance")) := by
      apply Prod.ext
      · rw [withdraw_db]
        exact map_eq_self_of_forall (fun row hmem => if_neg (hno row hmem))
      · rw [withdraw_err, if_pos (List.countP_eq_zero.mpr hno)]
    exact handler_withdraw_error db acc amount _ db hrepo

/-- C13 amended, at balance 100 and the amount minus five: the request is
answered with status 200. -/
theorem C13_withdraw_nonpositive_amount_witness :
    (-5 : models.Money) ≤ 0 ∧
    (∃ row ∈ [sampleRow "1234567890" 100],
      row.AccountNumber = "1234567890" ∧ row.Balance ≥ -5) ∧
    (handler.Withdraw (.ok { NoRekening := "1234567890", Amount := -5 }) none none
      [sampleRow "1234567890" 100]).2.Status = handler.StatusOK :=
  ⟨by decide, ⟨_, List.mem_singleton.mpr rfl, by decide⟩,
   ((C13_withdraw_nonpositive_amount [sampleRow "1234567890" 100] "1234567890" (-5)
      (by decide)).1 ⟨_, List.mem_singleton.mpr rfl, by decide⟩).1⟩

/-! ## Identity uniqueness -/

/-- C14: starting from a table whose NIKs are pairwise distinct and whose
phone numbers are pairwise distinct, after every finite sequence of
`CreateAccount`, `UpdateBalanceWithdraw` and `UpdateBalanceDeposit` calls, one
after the other, with arbitrary arguments and outcomes, the NIKs are still
pairwise distinct and the phone numbers are still pairwise distinct; and a
registration on the table reached whose NIK no account holds and whose phone
number some account holds returns, once its two queries are executed, the
error "phone Number already exists" and leaves the table as it was. -/
theorem C14_identity_uniqueness (db : DB) (calls : List Call)
    (hnik : (db.map (fun row => row.NIK)).Nodup)
    (hphone : (db.map (fun row => row.PhoneNumber)).Nodup) :
    ((run db calls).map (fun row => row.NIK)).Nodup ∧
    ((run db calls).map (fun row => row.PhoneNumber)).Nodup ∧
    ∀ (env : service.CreateEnv) (req : dto.AccountRegistration),
      (∀ row ∈ run db calls, row.NIK ≠ req.NIK) →
      (∃ row ∈ run db calls, row.PhoneNumber = req.NoHP) →
      service.CreateAccount { env with nikFault := none, phoneFault := none }
          (run db calls) req
        = (run db calls, .error (Error.new "phone Number already exists")) := by
  refine ⟨(run_identity calls db hnik hphone).1, (run_identity calls db hnik hphone).2, ?_⟩
  intro env req hfresh hheld
  have h₁ : (run db calls).any (fun row => row.NIK == req.NIK) = false := by
    rw [List.any_eq_false]
    intro row hrow
    simpa using hfresh row hrow
  have h₂ : (run db calls).any (fun row => row.PhoneNumber == req.NoHP) = true := by
    rw [List.any_eq_true]
    obtain ⟨row, hrow, hp⟩ := hheld
    exact ⟨row, hrow, by simp [hp]⟩
  simp only [service.CreateAccount, repository.NIKExist, repository.PhoneNumberExist,
    QueryRowContext, sqlExists, h₁, h₂]

/-- C14, from the empty table: of four registrations the two that repeat a
NIK or a phone number insert nothing, and a further registration with the
phone number of the first account is rejected. -/
theorem C14_identity_uniqueness_witness :
    (([] : DB).map (fun row => row.NIK)).Nodup ∧
    (([] : DB).map (fun row => row.PhoneNumber)).Nodup ∧
    (run [] registrationCalls).map (fun row => (row.NIK, row.PhoneNumber, row.Balance))
      = [("3201", "0811", 100), ("3202", "0899", 0)] ∧
    ((run [] registrationCalls).map (fun row => row.NIK)).Nodup ∧
    service.CreateAccount { sampleEnvSecond with nikFault := none, phoneFault := none }
        (run [] registrationCalls) { Nama := "Ani", NIK := "3203", NoHP := "0811" }
      = (run [] registrationCalls, .error (Error.new "phone Number already exists")) :=
  ⟨List.nodup_nil, List.nodup_nil, by decide,
   (C14_identity_uniqueness [] registrationCalls List.nodup_nil List.nodup_nil).1,
   (C14_identity_uniqueness [] registrationCalls List.nodup_nil List.nodup_nil).2.2
     sampleEnvSecond { Nama := "Ani", NIK := "3203", NoHP := "0811" }
     (by decide) (by decide)⟩

end ServiceAccount
